import Mathlib

/-!
Shallow embedding of the real-time-price-aggregator core in Lean 4, together
with theorems settling the specification claims about it.

Embedded components (Go source file in parentheses):
* the multi-source price aggregation engine (internal/fetcher/fetcher.go);
* the per-source circuit breaker (internal/circuitbreaker/circuit_breaker.go);
* the tier classifier and force-refresh path (internal/refresher/refresher.go);
* the price read path of the API handler (internal/api/handler.go, the
  refresher-aware variant).

Conventions: Go float64 arithmetic is embedded as exact rational arithmetic
(ℚ); int64 timestamps are embedded as ℤ; Go (value, error) pairs are embedded
as Except / Option; network and clock effects are passed in explicitly as
function arguments, so every definition is a pure function of its inputs.
-/

namespace PriceAggregator

/-! Fetcher (internal/fetcher/fetcher.go). -/

/-- Embeds `mockResponse`: one decoded upstream exchange response. -/
structure MockResponse where
  symbol : String
  price : ℚ
  volume : ℚ
  timestamp : ℤ
deriving DecidableEq, Repr

/-- Embeds `types.PriceData`: the aggregated price point returned by
`FetchPrice`. -/
structure PriceData where
  asset : String
  price : ℚ
  timestamp : ℤ
deriving DecidableEq, Repr

/-- Outcome of the HTTP layer for one endpoint during one `FetchPrice` call:
either one of the failure modes handled in `fetchFromEndpoint`
(network error, circuit-breaker rejection, non-200 status, body decode
failure) or a successfully decoded `mockResponse` body. -/
inductive EndpointOutcome where
  | networkError (msg : String)
  | circuitOpenRejected
  | badStatus (code : ℕ)
  | decodeError (msg : String)
  | decoded (resp : MockResponse)
deriving DecidableEq, Repr

/-- Embeds `fetchFromEndpoint` (fetcher.go lines 81-132): every failure mode
is turned into an error string, and a successfully decoded body is returned
as is — the function performs no validation of the decoded price or volume
fields. -/
def fetchFromEndpoint (endpoint : String) : EndpointOutcome → Except String MockResponse
  | .networkError msg => .error msg
  | .circuitOpenRejected => .error ("circuit open for endpoint " ++ endpoint)
  | .badStatus code => .error ("unexpected status code: " ++ toString code)
  | .decodeError msg => .error msg
  | .decoded resp => .ok resp

/-- Errors of `FetchPrice`. `noValidData` embeds `ErrNoValidData` wrapped
around the individual endpoint failure messages (Go concatenates them into
one string; the list keeps them apart). `zeroVolume` embeds `ErrZeroVolume`. -/
inductive FetchErr where
  | noValidData (msgs : List String)
  | zeroVolume
deriving DecidableEq, Repr

/-- Embeds Go `strings.ToLower` (the asset symbols are ASCII), mapping the
character-level lowering over the string. -/
def toLowerStr (s : String) : String :=
  ⟨s.data.map Char.toLower⟩

/-- Responses collected from the per-endpoint goroutines in `FetchPrice`
(lines 143-166): exactly those endpoints whose `fetchFromEndpoint` call
returned without error. -/
def acceptedResponses (outcomes : List (String × EndpointOutcome)) : List MockResponse :=
  (outcomes.map fun p => fetchFromEndpoint p.1 p.2).filterMap Except.toOption

/-- Error messages collected from the per-endpoint goroutines in
`FetchPrice` (lines 167-169). -/
def collectedErrors (outcomes : List (String × EndpointOutcome)) : List String :=
  (outcomes.map fun p => fetchFromEndpoint p.1 p.2).filterMap fun r =>
    match r with
    | .error e => some e
    | .ok _ => none

/-- One iteration of the aggregation loop body (fetcher.go lines 188-194):
accumulates `totalPrice`, `totalVolume` and `latestTimestamp`. -/
def aggregateStep (acc : ℚ × ℚ × ℤ) (resp : MockResponse) : ℚ × ℚ × ℤ :=
  (acc.1 + resp.price * resp.volume,
   acc.2.1 + resp.volume,
   if resp.timestamp > acc.2.2 then resp.timestamp else acc.2.2)

/-- The aggregation loop of `FetchPrice`: `totalPrice`, `totalVolume` and
`latestTimestamp` all start at the Go zero value (0) and are folded over the
collected responses. -/
def aggregate (responses : List MockResponse) : ℚ × ℚ × ℤ :=
  responses.foldl aggregateStep (0, 0, 0)

/-- Embeds `FetchPrice` (fetcher.go lines 135-207). The per-endpoint network
outcomes are passed in as data; the function collects accepted responses and
errors, fails with `noValidData` when no endpoint succeeded, computes the
volume-weighted average, fails with `zeroVolume` when the accumulated volume
is zero, and otherwise returns the aggregated `PriceData` with the symbol
lower-cased. -/
def fetchPrice (symbol : String) (outcomes : List (String × EndpointOutcome)) :
    Except FetchErr PriceData :=
  let responses := acceptedResponses outcomes
  if responses.length = 0 then
    .error (.noValidData (collectedErrors outcomes))
  else
    let agg := aggregate responses
    if agg.2.1 = 0 then
      .error .zeroVolume
    else
      .ok { asset := toLowerStr symbol, price := agg.1 / agg.2.1, timestamp := agg.2.2 }

/-! Circuit breaker (internal/circuitbreaker/circuit_breaker.go). -/

/-- Embeds the `State` enum of the circuit breaker. -/
inductive CBState where
  | closed
  | opened
  | halfOpen
deriving DecidableEq, Repr

/-- Embeds the `CircuitBreaker` struct. Durations and instants are embedded
as ℤ (a fixed time unit); the `name` field and the mutex are dropped — the
embedding is sequential, matching the mutex-serialized Go execution. -/
structure CircuitBreaker where
  failureThreshold : ℕ
  resetTimeout : ℤ
  halfOpenMaxRetries : ℕ
  state : CBState
  failureCount : ℕ
  lastFailure : ℤ
  retryCount : ℕ
deriving DecidableEq, Repr

/-- Embeds `New` (circuit_breaker.go lines 42-50): a fresh breaker in the
`Closed` state with all counters and the last-failure instant at their Go
zero values. -/
def CircuitBreaker.make (failureThreshold : ℕ) (resetTimeout : ℤ)
    (halfOpenMaxRetries : ℕ) : CircuitBreaker :=
  { failureThreshold := failureThreshold
    resetTimeout := resetTimeout
    halfOpenMaxRetries := halfOpenMaxRetries
    state := .closed
    failureCount := 0
    lastFailure := 0
    retryCount := 0 }

/-- Classifies the error value returned by one `Execute` call:
`circuitOpen` is the distinguished `ErrCircuitOpen`, `fnError` is the
protected function's own error passed through, `ok` is a nil error. -/
inductive ExecOutcome where
  | circuitOpen
  | fnError
  | ok
deriving DecidableEq, Repr

/-- Result of one `Execute` call: the returned error class, whether the
protected function was invoked, and the breaker state after the call. -/
structure ExecResult where
  outcome : ExecOutcome
  invoked : Bool
  cb : CircuitBreaker
deriving DecidableEq, Repr

/-- Embeds the tail of `Execute` (circuit_breaker.go lines 85-113): the
protected function has been invoked with result `fnOk`; record the outcome.
On failure the failure counter and last-failure instant are updated and the
breaker opens when it was half-open or the counter reached the threshold; on
success a half-open breaker closes and the failure counter resets to zero. -/
def runProtected (cb : CircuitBreaker) (now : ℤ) (fnOk : Bool) : ExecResult :=
  if fnOk then
    let cb := if cb.state = .halfOpen then { cb with state := .closed } else cb
    { outcome := .ok, invoked := true, cb := { cb with failureCount := 0 } }
  else
    let cb := { cb with failureCount := cb.failureCount + 1, lastFailure := now }
    if cb.state = .halfOpen ∨ cb.failureCount ≥ cb.failureThreshold then
      { outcome := .fnError, invoked := true, cb := { cb with state := .opened } }
    else
      { outcome := .fnError, invoked := true, cb := cb }

/-- Embeds the half-open gate of `Execute` (circuit_breaker.go lines 70-80),
reached when the breaker is not (or no longer) `Open`: in the half-open state
the retry counter is incremented and, past `halfOpenMaxRetries`, the breaker
reopens with a fresh last-failure instant and the call is rejected; otherwise
the protected function runs. -/
def executeGate (cb : CircuitBreaker) (now : ℤ) (fnOk : Bool) : ExecResult :=
  let cb := if cb.state = .halfOpen then { cb with retryCount := cb.retryCount + 1 } else cb
  if cb.state = .halfOpen ∧ cb.retryCount > cb.halfOpenMaxRetries then
    { outcome := .circuitOpen, invoked := false,
      cb := { cb with state := .opened, lastFailure := now } }
  else
    runProtected cb now fnOk

/-- Embeds `Execute` (circuit_breaker.go lines 53-114). `now` is the clock
instant of this call (used both for the reset-timeout comparison and for
recording failures); `fnOk` is the outcome the protected function would
produce if invoked. -/
def execute (cb : CircuitBreaker) (now : ℤ) (fnOk : Bool) : ExecResult :=
  if cb.state = .opened then
    if now - cb.lastFailure > cb.resetTimeout then
      executeGate { cb with state := .halfOpen, retryCount := 0 } now fnOk
    else
      { outcome := .circuitOpen, invoked := false, cb := cb }
  else
    executeGate cb now fnOk

/-- Runs a sequence of `Execute` calls that all fail (the protected function
returns an error whenever invoked), at the given sequence of clock instants. -/
def runFailures (cb : CircuitBreaker) (ts : List ℤ) : CircuitBreaker :=
  ts.foldl (fun c t => (execute c t false).cb) cb

/-! Refresher (internal/refresher/refresher.go). -/

/-- Embeds the `AssetTier` enum; `hot` is the first constructor and hence
the Go zero value `HotTier = 0`. -/
inductive AssetTier where
  | hot
  | medium
  | cold
deriving DecidableEq, Repr

/-- Tier chosen by the `AssignTiers` loop body for the asset at position `i`
of the supported list (refresher.go lines 81-89). -/
def tierFor (i : ℕ) : AssetTier :=
  if i < 20 then .hot else if i < 200 then .medium else .cold

/-- Worker for `assignTiers`: walks the remaining supported list, with `i`
the rank of its head in the full list, updating the tier map entry of each
asset exactly as the Go `for i, asset := range` loop writes
`r.assetTiers[asset]`. -/
def assignTiersFrom (i : ℕ) (l : List String) (m : String → Option AssetTier) :
    String → Option AssetTier :=
  match l with
  | [] => m
  | a :: rest => assignTiersFrom (i + 1) rest (Function.update m a (some (tierFor i)))

/-- Embeds `AssignTiers` (refresher.go lines 75-94): builds the
`assetTiers` map from an empty map by ranking the supported list. The map is
embedded as a partial lookup function (`none` = key absent). -/
def assignTiers (supportedList : List String) : String → Option AssetTier :=
  assignTiersFrom 0 supportedList (fun _ => none)

/-- Embeds `GetAssetTier` (refresher.go lines 195-199): a Go map read
`r.assetTiers[asset]` yields the zero value `HotTier` when the key is
absent. -/
def getAssetTier (assetTiers : String → Option AssetTier) (asset : String) : AssetTier :=
  (assetTiers asset).getD .hot

/-- Embeds the `tierString` switch used in `ForceRefresh` and in the handler
(refresher.go lines 218-226, handler.go lines 452-460). -/
def tierString : AssetTier → String
  | .hot => "hot"
  | .medium => "medium"
  | .cold => "cold"

/-- Error value returned by `ForceRefresh`: the distinguished
`fetcher.ErrAssetNotSupported`, or the fetch error passed through. -/
inductive RefreshFailure where
  | assetNotSupported
  | fetchFailed (e : FetchErr)
deriving DecidableEq, Repr

/-- Observable result of one `ForceRefresh` call: the returned error (none =
nil), whether `FetchPrice` was called, whether a refresh-error metric was
recorded, and whether the `Cache.Set` and `Storage.Save` writes were
attempted. -/
structure ForceRefreshRun where
  result : Option RefreshFailure
  fetched : Bool
  errorMetricRecorded : Bool
  cacheSetAttempted : Bool
  saveAttempted : Bool
deriving DecidableEq, Repr

/-- Embeds `ForceRefresh` (refresher.go lines 203-249). The fetch outcome
and the outcomes of the two writes are passed in as data. The membership
scan over `supportedList` guards everything; a fetch error is returned after
recording the error metric; after a successful fetch, `Cache.Set` and
`Storage.Save` are both attempted unconditionally — their failures
(`cacheSetErr`, `saveErr`) are only logged and the function returns nil. -/
def forceRefresh (supportedList : List String) (asset : String)
    (fetchResult : Except FetchErr PriceData)
    (_cacheSetErr : Option String) (_saveErr : Option String) : ForceRefreshRun :=
  if supportedList.contains asset = false then
    { result := some .assetNotSupported, fetched := false,
      errorMetricRecorded := false, cacheSetAttempted := false, saveAttempted := false }
  else
    match fetchResult with
    | .error e =>
      { result := some (.fetchFailed e), fetched := true,
        errorMetricRecorded := true, cacheSetAttempted := false, saveAttempted := false }
    | .ok _ =>
      { result := none, fetched := true,
        errorMetricRecorded := false, cacheSetAttempted := true, saveAttempted := true }

/-! Read path (internal/api/handler.go, `GetPrice`, refresher-aware variant). -/

/-- Embeds `storage.PriceRecord` (internal/storage/dynamodb.go lines 21-26). -/
structure PriceRecord where
  asset : String
  timestamp : ℤ
  price : ℚ
  updatedAt : ℤ
deriving DecidableEq, Repr

/-- Staleness bound of the handler: `maxDataAge` is 5 minutes (handler.go
line 346), embedded in seconds. -/
def maxDataAge : ℤ := 300

/-- Effectful collaborators of one `GetPrice` request, passed in as data.
Each is consulted at most once per request: the first `Cache.Get`, the
`Storage.Get` fallback, the `ForceRefresh` outcome (none = success), the
second `Cache.Get` after a successful refresh, and the current clock. A
`.error` embeds a Go non-nil error (the Redis and DynamoDB clients return a
nil value alongside every error); `.ok none` is a miss. -/
structure ReadEnv where
  cacheGet1 : Except String (Option PriceData)
  storageGet : Except String (Option PriceRecord)
  refreshErr : Option String
  cacheGet2 : Except String (Option PriceData)
  now : ℤ
deriving Repr

/-- HTTP-level outcome of one `GetPrice` request. `badRequest` is 400,
`internalError` 500, `notFound` the 404 "Asset data not available" path,
and `ok` the 200 response carrying the served price point and its tier
label. -/
inductive GetPriceOutcome where
  | badRequest (msg : String)
  | internalError
  | notFound
  | ok (pd : PriceData) (tier : String)
deriving DecidableEq, Repr

/-- Observable run of one `GetPrice` request: the response and whether
`Refresher.ForceRefresh` was invoked. -/
structure GetPriceRun where
  outcome : GetPriceOutcome
  refreshCalled : Bool
deriving DecidableEq, Repr

/-- Embeds the `needsRefresh` tail of `GetPrice` (handler.go lines 424-448):
`ForceRefresh` is called; when it fails, the previously held `priceData` is
served if present, otherwise 404; when it succeeds, `priceData` is
reassigned from a second `Cache.Get`, and a nil result of that re-read
(error or miss) yields 404 — the Go assignment `priceData, err =
h.cache.Get(...)` has already overwritten the previously held value. -/
def refreshAndRespond (assetTiers : String → Option AssetTier) (s : String)
    (env : ReadEnv) (priceData : Option PriceData) : GetPriceRun :=
  match env.refreshErr with
  | some _ =>
    match priceData with
    | none => { outcome := .notFound, refreshCalled := true }
    | some pd =>
      { outcome := .ok pd (tierString (getAssetTier assetTiers s)), refreshCalled := true }
  | none =>
    match env.cacheGet2 with
    | .error _ => { outcome := .notFound, refreshCalled := true }
    | .ok none => { outcome := .notFound, refreshCalled := true }
    | .ok (some pd) =>
      { outcome := .ok pd (tierString (getAssetTier assetTiers s)), refreshCalled := true }

/-- Embeds `GetPrice` (handler.go lines 352-464). The symbol is validated
against the supported-asset set; the cache is read (an error is an immediate
500); on a miss the storage is read (an error is an immediate 500), a found
record is converted, backfilled into the cache (best-effort, its error only
logged and therefore not part of the run) and age-checked for every tier; on
a hit only a cold-tier asset is age-checked. When fresh data is needed the
request finishes through `refreshAndRespond`. -/
def getPrice (supportedAssets : String → Bool) (assetTiers : String → Option AssetTier)
    (symbol : String) (env : ReadEnv) : GetPriceRun :=
  if symbol = "" then
    { outcome := .badRequest "Asset symbol is required", refreshCalled := false }
  else
    let s := toLowerStr symbol
    if supportedAssets s = false then
      { outcome := .badRequest "Invalid asset symbol", refreshCalled := false }
    else
      match env.cacheGet1 with
      | .error _ => { outcome := .internalError, refreshCalled := false }
      | .ok none =>
        match env.storageGet with
        | .error _ => { outcome := .internalError, refreshCalled := false }
        | .ok none => refreshAndRespond assetTiers s env none
        | .ok (some record) =>
          let pd : PriceData :=
            { asset := record.asset, price := record.price, timestamp := record.timestamp }
          if env.now - record.timestamp > maxDataAge then
            refreshAndRespond assetTiers s env (some pd)
          else
            { outcome := .ok pd (tierString (getAssetTier assetTiers s)),
              refreshCalled := false }
      | .ok (some pd) =>
        let tier := getAssetTier assetTiers s
        if tier = .cold ∧ env.now - pd.timestamp > maxDataAge then
          refreshAndRespond assetTiers s env (some pd)
        else
          { outcome := .ok pd (tierString tier), refreshCalled := false }

/-! Helper lemmas for the aggregation loop. -/

/-- Timestamp accumulation step of the aggregation loop, in isolation. -/
def tsAcc (acc : ℤ) (r : MockResponse) : ℤ :=
  if r.timestamp > acc then r.timestamp else acc

theorem aggregate_foldl_eq (rs : List MockResponse) (a b : ℚ) (t : ℤ) :
    rs.foldl aggregateStep (a, b, t) =
      (a + (rs.map fun r => r.price * r.volume).sum,
       b + (rs.map fun r => r.volume).sum,
       rs.foldl tsAcc t) := by
  induction rs generalizing a b t with
  | nil => simp
  | cons r rest ih =>
    simp only [List.foldl_cons, List.map_cons, List.sum_cons, ih, aggregateStep, tsAcc,
      Prod.mk.injEq]
    exact ⟨by ring, by ring, trivial⟩

theorem le_foldl_tsAcc_init (rs : List MockResponse) (t : ℤ) : t ≤ rs.foldl tsAcc t := by
  induction rs generalizing t with
  | nil => simp
  | cons r rest ih =>
    refine le_trans ?_ (ih (tsAcc t r))
    unfold tsAcc
    split <;> omega

theorem le_foldl_tsAcc_mem (rs : List MockResponse) (r : MockResponse) (hr : r ∈ rs) :
    ∀ t, r.timestamp ≤ rs.foldl tsAcc t := by
  induction rs with
  | nil => cases hr
  | cons x rest ih =>
    intro t
    rcases List.mem_cons.mp hr with h | h
    · subst h
      exact le_trans (by unfold tsAcc; split <;> omega) (le_foldl_tsAcc_init rest _)
    · exact ih h _

theorem foldl_tsAcc_eq_or_mem (rs : List MockResponse) :
    ∀ t, rs.foldl tsAcc t = t ∨ ∃ r ∈ rs, rs.foldl tsAcc t = r.timestamp := by
  induction rs with
  | nil =>
    intro t
    exact Or.inl rfl
  | cons x rest ih =>
    intro t
    rcases ih (tsAcc t x) with h | ⟨r, hr, he⟩
    · by_cases hx : x.timestamp > t
      · refine Or.inr ⟨x, List.mem_cons_self x rest, ?_⟩
        rw [List.foldl_cons, h]
        unfold tsAcc
        simp [hx]
      · refine Or.inl ?_
        rw [List.foldl_cons, h]
        unfold tsAcc
        simp [hx]
    · exact Or.inr ⟨r, List.mem_cons_of_mem x hr, by rw [List.foldl_cons]; exact he⟩

theorem toOption_ok {ε α : Type} (a : α) : (Except.ok a : Except ε α).toOption = some a := rfl

theorem toOption_error {ε α : Type} (e : ε) : (Except.error e : Except ε α).toOption = none := rfl

theorem fetchFromEndpoint_ok_iff (e : String) (o : EndpointOutcome) (r : MockResponse) :
    fetchFromEndpoint e o = .ok r ↔ o = .decoded r := by
  cases o <;> simp [fetchFromEndpoint]

theorem acceptedResponses_nil_iff (outcomes : List (String × EndpointOutcome)) :
    acceptedResponses outcomes = [] ↔
      ∀ p ∈ outcomes, ∀ r : MockResponse, p.2 ≠ EndpointOutcome.decoded r := by
  induction outcomes with
  | nil => simp [acceptedResponses]
  | cons p rest ih =>
    show ((p :: rest).map fun q => fetchFromEndpoint q.1 q.2).filterMap Except.toOption = [] ↔ _
    simp only [List.map_cons, List.filterMap_cons]
    cases hp : fetchFromEndpoint p.1 p.2 with
    | error e =>
      simp only [Except.toOption]
      rw [show ((rest.map fun q => fetchFromEndpoint q.1 q.2).filterMap Except.toOption = []) =
            (acceptedResponses rest = []) from rfl, ih]
      constructor
      · intro h q hq r
        rcases List.mem_cons.mp hq with hq | hq
        · subst hq
          intro hc
          rw [hc] at hp
          exact absurd hp (by simp [fetchFromEndpoint])
        · exact h q hq r
      · intro h q hq r
        exact h q (List.mem_cons_of_mem p hq) r
    | ok r =>
      simp only [Except.toOption]
      constructor
      · intro h
        cases h
      · intro h
        exact absurd ((fetchFromEndpoint_ok_iff p.1 p.2 r).mp hp)
          (h p (List.mem_cons_self p rest) r)

theorem mem_acceptedResponses_of_decoded (outcomes : List (String × EndpointOutcome))
    (e : String) (r : MockResponse) (h : (e, EndpointOutcome.decoded r) ∈ outcomes) :
    r ∈ acceptedResponses outcomes := by
  induction outcomes with
  | nil => cases h
  | cons p rest ih =>
    show r ∈ ((p :: rest).map fun q => fetchFromEndpoint q.1 q.2).filterMap Except.toOption
    simp only [List.map_cons, List.filterMap_cons]
    rcases List.mem_cons.mp h with hp | hp
    · subst hp
      simp [fetchFromEndpoint, Except.toOption]
    · cases hfe : fetchFromEndpoint p.1 p.2 with
      | error msg =>
        exact ih hp
      | ok r2 =>
        exact List.mem_cons_of_mem r2 (ih hp)

theorem fetchPrice_ok_characterization (symbol : String)
    (outcomes : List (String × EndpointOutcome))
    (h1 : acceptedResponses outcomes ≠ [])
    (h2 : ((acceptedResponses outcomes).map fun r => r.volume).sum ≠ 0) :
    fetchPrice symbol outcomes =
      .ok { asset := toLowerStr symbol,
            price := ((acceptedResponses outcomes).map fun r => r.price * r.volume).sum /
                     ((acceptedResponses outcomes).map fun r => r.volume).sum,
            timestamp := (acceptedResponses outcomes).foldl tsAcc 0 } := by
  have hagg : aggregate (acceptedResponses outcomes) =
      (((acceptedResponses outcomes).map fun r => r.price * r.volume).sum,
       ((acceptedResponses outcomes).map fun r => r.volume).sum,
       (acceptedResponses outcomes).foldl tsAcc 0) := by
    unfold aggregate
    rw [aggregate_foldl_eq]
    simp
  have hlen : ¬ (acceptedResponses outcomes).length = 0 := by
    simpa [List.length_eq_zero] using h1
  simp only [fetchPrice, hagg, if_neg hlen, if_neg h2]

theorem aggregate_eq (rs : List MockResponse) :
    aggregate rs =
      ((rs.map fun r => r.price * r.volume).sum,
       (rs.map fun r => r.volume).sum,
       rs.foldl tsAcc 0) := by
  unfold aggregate
  rw [aggregate_foldl_eq]
  simp

/-! Claim theorems. -/

/-- C1 counterexample: with a single accepted response whose `observedAt` is
negative (-5), `FetchPrice` returns `observedAt = 0`, not the maximum of the
accepted timestamps (-5): the Go accumulator `latestTimestamp` starts at the
int64 zero value and is only ever increased. -/
theorem fetchPrice_observedAt_counterexample :
    fetchPrice "btc" [("e1", EndpointOutcome.decoded ⟨"btc", 100, 2, -5⟩)] =
      Except.ok { asset := "btc", price := 100, timestamp := 0 } ∧
    acceptedResponses [("e1", EndpointOutcome.decoded ⟨"btc", 100, 2, -5⟩)] =
      [⟨"btc", 100, 2, -5⟩] ∧
    ¬ (0 : ℤ) = (-5 : ℤ) := by
  refine ⟨?_, by decide, by decide⟩
  rw [fetchPrice_ok_characterization "btc" _ (by decide) (by norm_num [acceptedResponses,
    fetchFromEndpoint, List.filterMap_cons, toOption_ok, toOption_error])]
  simp only [Except.ok.injEq, PriceData.mk.injEq]
  refine ⟨by decide, ?_, by decide⟩
  norm_num [acceptedResponses, fetchFromEndpoint, List.filterMap_cons, toOption_ok,
    toOption_error]

/-- C1 (amended): when at least one source response is accepted and the
accepted volumes sum to a non-zero value, `FetchPrice` returns a price point
whose price is the volume-weighted mean `sum(price_i * volume_i) /
sum(volume_i)` over the accepted responses, and whose `observedAt` is the
maximum of 0 and the accepted `observedAt_i` (an upper bound of all accepted
timestamps, itself nonnegative, and attained by an accepted response unless
it is the initial 0). -/
theorem fetchPrice_weightedMean (symbol : String)
    (outcomes : List (String × EndpointOutcome))
    (h1 : acceptedResponses outcomes ≠ [])
    (h2 : ((acceptedResponses outcomes).map fun r => r.volume).sum ≠ 0) :
    ∃ pd : PriceData, fetchPrice symbol outcomes = .ok pd ∧
      pd.price = ((acceptedResponses outcomes).map fun r => r.price * r.volume).sum /
                 ((acceptedResponses outcomes).map fun r => r.volume).sum ∧
      (∀ r ∈ acceptedResponses outcomes, r.timestamp ≤ pd.timestamp) ∧
      0 ≤ pd.timestamp ∧
      (pd.timestamp = 0 ∨ ∃ r ∈ acceptedResponses outcomes, pd.timestamp = r.timestamp) := by
  refine ⟨_, fetchPrice_ok_characterization symbol outcomes h1 h2, rfl, ?_, ?_, ?_⟩
  · intro r hr
    exact le_foldl_tsAcc_mem _ r hr 0
  · exact le_foldl_tsAcc_init _ 0
  · exact foldl_tsAcc_eq_or_mem _ 0

/-- Witness for `fetchPrice_weightedMean`: the spec's own example, sources
reporting (price, volume) = (100, 10) and (200, 30), both hypotheses
discharged concretely. -/
theorem fetchPrice_weightedMean_witness :
    acceptedResponses [("e1", EndpointOutcome.decoded ⟨"btcusdt", 100, 10, 5⟩),
        ("e2", EndpointOutcome.decoded ⟨"btcusdt", 200, 30, 7⟩)] ≠ [] ∧
    ((acceptedResponses [("e1", EndpointOutcome.decoded ⟨"btcusdt", 100, 10, 5⟩),
        ("e2", EndpointOutcome.decoded ⟨"btcusdt", 200, 30, 7⟩)]).map fun r => r.volume).sum ≠ 0 ∧
    (∃ pd : PriceData,
      fetchPrice "btcusdt" [("e1", EndpointOutcome.decoded ⟨"btcusdt", 100, 10, 5⟩),
          ("e2", EndpointOutcome.decoded ⟨"btcusdt", 200, 30, 7⟩)] = .ok pd ∧
      pd.price = ((acceptedResponses [("e1", EndpointOutcome.decoded ⟨"btcusdt", 100, 10, 5⟩),
            ("e2", EndpointOutcome.decoded ⟨"btcusdt", 200, 30, 7⟩)]).map
              fun r => r.price * r.volume).sum /
          ((acceptedResponses [("e1", EndpointOutcome.decoded ⟨"btcusdt", 100, 10, 5⟩),
            ("e2", EndpointOutcome.decoded ⟨"btcusdt", 200, 30, 7⟩)]).map
              fun r => r.volume).sum ∧
      (∀ r ∈ acceptedResponses [("e1", EndpointOutcome.decoded ⟨"btcusdt", 100, 10, 5⟩),
          ("e2", EndpointOutcome.decoded ⟨"btcusdt", 200, 30, 7⟩)], r.timestamp ≤ pd.timestamp) ∧
      0 ≤ pd.timestamp ∧
      (pd.timestamp = 0 ∨ ∃ r ∈ acceptedResponses
          [("e1", EndpointOutcome.decoded ⟨"btcusdt", 100, 10, 5⟩),
           ("e2", EndpointOutcome.decoded ⟨"btcusdt", 200, 30, 7⟩)],
          pd.timestamp = r.timestamp)) :=
  ⟨by decide,
   by norm_num [acceptedResponses, fetchFromEndpoint, List.filterMap_cons, toOption_ok,
     toOption_error],
   fetchPrice_weightedMean "btcusdt" _ (by decide)
     (by norm_num [acceptedResponses, fetchFromEndpoint, List.filterMap_cons, toOption_ok,
       toOption_error])⟩

/-- C3: `FetchPrice` error handling. No source succeeds exactly when no
endpoint outcome is a decoded response, and then the result is the
`NoValidData` error wrapping the collected per-endpoint failure messages; at
least one success with non-zero total volume yields a price point and no
error; at least one success with total volume zero yields the `ZeroVolume`
error. -/
theorem fetchPrice_errorHandling (symbol : String)
    (outcomes : List (String × EndpointOutcome)) :
    (acceptedResponses outcomes = [] ↔
      ∀ p ∈ outcomes, ∀ r : MockResponse, p.2 ≠ EndpointOutcome.decoded r) ∧
    (acceptedResponses outcomes = [] →
      fetchPrice symbol outcomes = .error (.noValidData (collectedErrors outcomes))) ∧
    (acceptedResponses outcomes ≠ [] →
      ((acceptedResponses outcomes).map fun r => r.volume).sum ≠ 0 →
      ∃ pd : PriceData, fetchPrice symbol outcomes = .ok pd) ∧
    (acceptedResponses outcomes ≠ [] →
      ((acceptedResponses outcomes).map fun r => r.volume).sum = 0 →
      fetchPrice symbol outcomes = .error .zeroVolume) := by
  refine ⟨acceptedResponses_nil_iff outcomes, ?_, ?_, ?_⟩
  · intro h
    simp [fetchPrice, h]
  · intro h1 h2
    exact ⟨_, fetchPrice_ok_characterization symbol outcomes h1 h2⟩
  · intro h1 h2
    have hlen : ¬ (acceptedResponses outcomes).length = 0 := by
      simpa [List.length_eq_zero] using h1
    simp only [fetchPrice, aggregate_eq, if_neg hlen, if_pos h2]

/-- Witness for `fetchPrice_errorHandling`: all three error-handling paths
exercised at concrete inputs — a lone network failure, a lone zero-volume
response, and a lone valid response. -/
theorem fetchPrice_errorHandling_witness :
    fetchPrice "eth" [("e1", EndpointOutcome.networkError "timeout")] =
      .error (.noValidData (collectedErrors [("e1", EndpointOutcome.networkError "timeout")])) ∧
    fetchPrice "eth" [("e1", EndpointOutcome.decoded ⟨"eth", 3, 0, 1⟩)] =
      .error .zeroVolume ∧
    (∃ pd : PriceData, fetchPrice "eth" [("e1", EndpointOutcome.decoded ⟨"eth", 3, 2, 1⟩)] =
      .ok pd) :=
  ⟨(fetchPrice_errorHandling "eth" _).2.1 (by decide),
   (fetchPrice_errorHandling "eth" _).2.2.2 (by decide)
     (by norm_num [acceptedResponses, fetchFromEndpoint, List.filterMap_cons, toOption_ok,
       toOption_error]),
   (fetchPrice_errorHandling "eth" _).2.2.1 (by decide)
     (by norm_num [acceptedResponses, fetchFromEndpoint, List.filterMap_cons, toOption_ok,
       toOption_error])⟩

/-- C4 counterexample: a decoded response with non-positive price (-1) is
NOT rejected by `fetchFromEndpoint` — it is returned as a success, and it
contributes to the aggregation: `FetchPrice` returns the weighted mean -1,
which is not positive. The canonical fetcher performs no price/volume
validation. -/
theorem fetchFromEndpoint_nonpositive_counterexample :
    fetchFromEndpoint "e1" (EndpointOutcome.decoded ⟨"x", -1, 1, 5⟩) =
      Except.ok ⟨"x", -1, 1, 5⟩ ∧
    acceptedResponses [("e1", EndpointOutcome.decoded ⟨"x", -1, 1, 5⟩)] =
      [⟨"x", -1, 1, 5⟩] ∧
    fetchPrice "x" [("e1", EndpointOutcome.decoded ⟨"x", -1, 1, 5⟩)] =
      .ok { asset := "x", price := -1, timestamp := 5 } ∧
    ¬ ((-1 : ℚ) > 0) := by
  refine ⟨rfl, by decide, ?_, by norm_num⟩
  rw [fetchPrice_ok_characterization "x" _ (by decide) (by norm_num [acceptedResponses,
    fetchFromEndpoint, List.filterMap_cons, toOption_ok, toOption_error])]
  simp only [Except.ok.injEq, PriceData.mk.injEq]
  refine ⟨by decide, ?_, by decide⟩
  norm_num [acceptedResponses, fetchFromEndpoint, List.filterMap_cons, toOption_ok,
    toOption_error]

/-- C4 (amended): `fetchFromEndpoint` rejects a source only for the network,
circuit-open, status and decode failure modes; every successfully decoded
response is accepted exactly as decoded, regardless of the sign of its price
or volume, and every decoded response contributes to the set aggregated by
`FetchPrice`. -/
theorem fetchFromEndpoint_acceptsAllDecoded :
    (∀ (e : String) (r : MockResponse),
      fetchFromEndpoint e (EndpointOutcome.decoded r) = .ok r) ∧
    (∀ (e : String) (o : EndpointOutcome) (r : MockResponse),
      fetchFromEndpoint e o = .ok r → o = .decoded r) ∧
    (∀ (outcomes : List (String × EndpointOutcome)) (e : String) (r : MockResponse),
      (e, EndpointOutcome.decoded r) ∈ outcomes → r ∈ acceptedResponses outcomes) := by
  refine ⟨fun e r => rfl, ?_, ?_⟩
  · intro e o r h
    exact (fetchFromEndpoint_ok_iff e o r).mp h
  · intro outcomes e r h
    exact mem_acceptedResponses_of_decoded outcomes e r h

/-- Witness for `fetchFromEndpoint_acceptsAllDecoded`: all three parts
applied at a concrete response with negative price. -/
theorem fetchFromEndpoint_acceptsAllDecoded_witness :
    fetchFromEndpoint "e1" (EndpointOutcome.decoded ⟨"y", -2, 3, 1⟩) = .ok ⟨"y", -2, 3, 1⟩ ∧
    EndpointOutcome.decoded (⟨"y", -2, 3, 1⟩ : MockResponse) =
      EndpointOutcome.decoded ⟨"y", -2, 3, 1⟩ ∧
    (⟨"y", -2, 3, 1⟩ : MockResponse) ∈
      acceptedResponses [("e1", EndpointOutcome.decoded ⟨"y", -2, 3, 1⟩)] :=
  ⟨fetchFromEndpoint_acceptsAllDecoded.1 "e1" ⟨"y", -2, 3, 1⟩,
   fetchFromEndpoint_acceptsAllDecoded.2.1 "e1" (EndpointOutcome.decoded ⟨"y", -2, 3, 1⟩)
     ⟨"y", -2, 3, 1⟩ rfl,
   fetchFromEndpoint_acceptsAllDecoded.2.2 [("e1", EndpointOutcome.decoded ⟨"y", -2, 3, 1⟩)]
     "e1" ⟨"y", -2, 3, 1⟩ (by decide)⟩

/-! Circuit breaker lemmas. -/

theorem execute_closed_failure (cb : CircuitBreaker) (t : ℤ) (hclosed : cb.state = .closed) :
    (execute cb t false).cb =
      if cb.failureCount + 1 ≥ cb.failureThreshold then
        { cb with failureCount := cb.failureCount + 1, lastFailure := t, state := .opened }
      else
        { cb with failureCount := cb.failureCount + 1, lastFailure := t } := by
  by_cases hge : cb.failureCount + 1 ≥ cb.failureThreshold <;>
    simp [execute, executeGate, runProtected, hclosed, hge]

theorem runFailures_opens (ts : List ℤ) :
    ∀ cb : CircuitBreaker, cb.state = .closed →
      cb.failureCount + ts.length = cb.failureThreshold → ts ≠ [] →
      (runFailures cb ts).state = .opened := by
  induction ts with
  | nil =>
    intro cb _ _ hne
    exact absurd rfl hne
  | cons t rest ih =>
    intro cb hclosed hcount _
    have hlen : cb.failureCount + (rest.length + 1) = cb.failureThreshold := by
      simpa using hcount
    show (runFailures (execute cb t false).cb rest).state = .opened
    rw [execute_closed_failure cb t hclosed]
    by_cases hge : cb.failureCount + 1 ≥ cb.failureThreshold
    · have hrest : rest = [] := by
        cases rest with
        | nil => rfl
        | cons r rs =>
          exfalso
          simp at hlen
          omega
      subst hrest
      simp [runFailures, hge]
    · rw [if_neg hge]
      apply ih
      · exact hclosed
      · simpa using by omega
      · cases rest with
        | nil =>
          exfalso
          simp at hlen
          omega
        | cons r rs => simp

/-- C2: the circuit breaker state machine. (1) Starting from a `Closed`
breaker with a zero failure counter, `failureThreshold` consecutive failed
calls (at arbitrary instants) leave the breaker `Open`. (2) While `Open`
and strictly less than `resetTimeout` past the last failure, `Execute`
rejects with the circuit-open error, does not invoke the protected function,
and leaves the breaker unchanged. (3) Once more than `resetTimeout` has
elapsed, the next call passes through the `HalfOpen` transition and invokes
the function (given a positive probe budget); success leaves the breaker
`Closed` with the failure counter reset to 0, failure leaves it `Open`.
(4) A successful probe in `HalfOpen` (within budget) returns nil, closes the
breaker and resets the failure counter. (5) A failed probe in `HalfOpen`
reopens the breaker. (6) A call in `HalfOpen` beyond `halfOpenMaxRetries`
probes is rejected without invoking the function, reopens the breaker and
resets `lastFailureTime` to the current instant. -/
theorem circuitBreaker_execute_spec :
    (∀ (ts : List ℤ) (cb : CircuitBreaker), cb.state = .closed → cb.failureCount = 0 →
        ts.length = cb.failureThreshold → 0 < cb.failureThreshold →
        (runFailures cb ts).state = .opened) ∧
    (∀ (cb : CircuitBreaker) (now : ℤ) (fnOk : Bool), cb.state = .opened →
        now - cb.lastFailure < cb.resetTimeout →
        execute cb now fnOk = ⟨.circuitOpen, false, cb⟩) ∧
    (∀ (cb : CircuitBreaker) (now : ℤ) (fnOk : Bool), cb.state = .opened →
        cb.resetTimeout < now - cb.lastFailure → 0 < cb.halfOpenMaxRetries →
        (execute cb now fnOk).invoked = true ∧
        (fnOk = true → (execute cb now fnOk).cb.state = .closed ∧
          (execute cb now fnOk).cb.failureCount = 0) ∧
        (fnOk = false → (execute cb now fnOk).cb.state = .opened)) ∧
    (∀ (cb : CircuitBreaker) (now : ℤ), cb.state = .halfOpen →
        cb.retryCount < cb.halfOpenMaxRetries →
        (execute cb now true).outcome = .ok ∧ (execute cb now true).invoked = true ∧
        (execute cb now true).cb.state = .closed ∧
        (execute cb now true).cb.failureCount = 0) ∧
    (∀ (cb : CircuitBreaker) (now : ℤ), cb.state = .halfOpen →
        cb.retryCount < cb.halfOpenMaxRetries →
        (execute cb now false).outcome = .fnError ∧ (execute cb now false).invoked = true ∧
        (execute cb now false).cb.state = .opened) ∧
    (∀ (cb : CircuitBreaker) (now : ℤ) (fnOk : Bool), cb.state = .halfOpen →
        cb.halfOpenMaxRetries ≤ cb.retryCount →
        execute cb now fnOk =
          ⟨.circuitOpen, false,
           { cb with
             state := .opened
             lastFailure := now
             retryCount := cb.retryCount + 1 }⟩) := by
  refine ⟨?_, ?_, ?_, ?_, ?_, ?_⟩
  · intro ts cb h1 h2 h3 h4
    apply runFailures_opens ts cb h1 (by omega)
    intro hnil
    subst hnil
    simp at h3
    omega
  · intro cb now fnOk h1 h2
    unfold execute
    rw [if_pos h1, if_neg (by omega)]
  · intro cb now fnOk h1 h2 h3
    unfold execute
    rw [if_pos h1, if_pos (by omega)]
    cases fnOk <;>
      simp [executeGate, runProtected, show ¬(0 + 1 > cb.halfOpenMaxRetries) from by omega]
  · intro cb now h1 h2
    simp [execute, executeGate, runProtected, h1, show ¬(cb.retryCount + 1 >
      cb.halfOpenMaxRetries) from by omega]
  · intro cb now h1 h2
    simp [execute, executeGate, runProtected, h1, show ¬(cb.retryCount + 1 >
      cb.halfOpenMaxRetries) from by omega]
  · intro cb now fnOk h1 h2
    simp [execute, executeGate, runProtected, h1, show cb.retryCount + 1 >
      cb.halfOpenMaxRetries from by omega]

/-- Witness for `circuitBreaker_execute_spec`: every part applied to a
concrete breaker (thresholds 2/30/2, matching the shape configured in
`NewFetcher` up to the constants). -/
theorem circuitBreaker_execute_spec_witness :
    (runFailures (CircuitBreaker.make 2 30 2) [5, 6]).state = .opened ∧
    execute ⟨5, 30, 2, .opened, 5, 100, 0⟩ 110 true =
      ⟨.circuitOpen, false, ⟨5, 30, 2, .opened, 5, 100, 0⟩⟩ ∧
    ((execute ⟨5, 30, 2, .opened, 5, 100, 0⟩ 200 true).invoked = true ∧
      (true = true → (execute ⟨5, 30, 2, .opened, 5, 100, 0⟩ 200 true).cb.state = .closed ∧
        (execute ⟨5, 30, 2, .opened, 5, 100, 0⟩ 200 true).cb.failureCount = 0) ∧
      (true = false → (execute ⟨5, 30, 2, .opened, 5, 100, 0⟩ 200 true).cb.state = .opened)) ∧
    ((execute ⟨5, 30, 2, .halfOpen, 5, 100, 0⟩ 50 true).outcome = .ok ∧
      (execute ⟨5, 30, 2, .halfOpen, 5, 100, 0⟩ 50 true).invoked = true ∧
      (execute ⟨5, 30, 2, .halfOpen, 5, 100, 0⟩ 50 true).cb.state = .closed ∧
      (execute ⟨5, 30, 2, .halfOpen, 5, 100, 0⟩ 50 true).cb.failureCount = 0) ∧
    ((execute ⟨5, 30, 2, .halfOpen, 5, 100, 0⟩ 50 false).outcome = .fnError ∧
      (execute ⟨5, 30, 2, .halfOpen, 5, 100, 0⟩ 50 false).invoked = true ∧
      (execute ⟨5, 30, 2, .halfOpen, 5, 100, 0⟩ 50 false).cb.state = .opened) ∧
    execute ⟨5, 30, 2, .halfOpen, 5, 100, 2⟩ 60 false =
      ⟨.circuitOpen, false,
       { (⟨5, 30, 2, .halfOpen, 5, 100, 2⟩ : CircuitBreaker) with
         state := .opened
         lastFailure := 60
         retryCount := 2 + 1 }⟩ :=
  ⟨circuitBreaker_execute_spec.1 [5, 6] (CircuitBreaker.make 2 30 2) rfl rfl rfl (by decide),
   circuitBreaker_execute_spec.2.1 ⟨5, 30, 2, .opened, 5, 100, 0⟩ 110 true rfl (by decide),
   circuitBreaker_execute_spec.2.2.1 ⟨5, 30, 2, .opened, 5, 100, 0⟩ 200 true rfl (by decide)
     (by decide),
   circuitBreaker_execute_spec.2.2.2.1 ⟨5, 30, 2, .halfOpen, 5, 100, 0⟩ 50 rfl (by decide),
   circuitBreaker_execute_spec.2.2.2.2.1 ⟨5, 30, 2, .halfOpen, 5, 100, 0⟩ 50 rfl (by decide),
   circuitBreaker_execute_spec.2.2.2.2.2 ⟨5, 30, 2, .halfOpen, 5, 100, 2⟩ 60 false rfl
     (by decide)⟩

/-! Tier assignment lemmas. -/

theorem assignTiersFrom_not_mem (l : List String) :
    ∀ (i : ℕ) (m : String → Option AssetTier) (a : String), a ∉ l →
      assignTiersFrom i l m a = m a := by
  induction l with
  | nil =>
    intro i m a _
    rfl
  | cons x rest ih =>
    intro i m a ha
    have hax : a ≠ x := fun h => ha (h ▸ List.mem_cons_self x rest)
    have har : a ∉ rest := fun h => ha (List.mem_cons_of_mem x h)
    show assignTiersFrom (i + 1) rest (Function.update m x (some (tierFor i))) a = m a
    rw [ih (i + 1) _ a har, Function.update_noteq hax]

theorem assignTiersFrom_get (l : List String) :
    ∀ (i j : ℕ) (hj : j < l.length) (m : String → Option AssetTier), l.Nodup →
      assignTiersFrom i l m (l.get ⟨j, hj⟩) = some (tierFor (i + j)) := by
  induction l with
  | nil =>
    intro i j hj
    exact absurd hj (by simp)
  | cons x rest ih =>
    intro i j hj m hnd
    have hx : x ∉ rest := (List.nodup_cons.mp hnd).1
    have hrest : rest.Nodup := (List.nodup_cons.mp hnd).2
    cases j with
    | zero =>
      show assignTiersFrom (i + 1) rest (Function.update m x (some (tierFor i))) x =
        some (tierFor (i + 0))
      rw [assignTiersFrom_not_mem rest (i + 1) _ x hx, Function.update_same, Nat.add_zero]
    | succ k =>
      have hlc : (x :: rest).length = rest.length + 1 := List.length_cons x rest
      have hk : k < rest.length := by omega
      show assignTiersFrom (i + 1) rest (Function.update m x (some (tierFor i)))
        (rest.get ⟨k, hk⟩) = some (tierFor (i + (k + 1)))
      rw [ih (i + 1) k hk _ hrest, show i + 1 + k = i + (k + 1) from by omega]

theorem assignTiersFrom_cases (l : List String) :
    ∀ (i : ℕ) (m : String → Option AssetTier) (a : String),
      assignTiersFrom i l m a = m a ∨
      ∃ j, j < l.length ∧ assignTiersFrom i l m a = some (tierFor (i + j)) := by
  induction l with
  | nil =>
    intro i m a
    exact Or.inl rfl
  | cons x rest ih =>
    intro i m a
    have hstep : assignTiersFrom i (x :: rest) m a =
        assignTiersFrom (i + 1) rest (Function.update m x (some (tierFor i))) a := rfl
    rcases ih (i + 1) (Function.update m x (some (tierFor i))) a with h | ⟨j, hj, he⟩
    · by_cases hax : a = x
      · subst hax
        refine Or.inr ⟨0, by simp, ?_⟩
        rw [hstep, h, Function.update_same, Nat.add_zero]
      · refine Or.inl ?_
        rw [hstep, h, Function.update_noteq hax]
    · refine Or.inr ⟨j + 1, by rw [List.length_cons]; omega, ?_⟩
      rw [hstep, he, show i + 1 + j = i + (j + 1) from by omega]

/-- C5: tier assignment by rank. For every duplicate-free ordered asset
universe, `AssignTiers` maps the asset at rank j to Hot for j < 20, Medium
for 20 ≤ j < 200 and Cold for j ≥ 200; and when the universe has fewer than
20 assets, every asset in it is Hot and no string at all is mapped to Medium
or Cold. -/
theorem assignTiers_byRank (l : List String) (hnd : l.Nodup) :
    (∀ (j : ℕ) (hj : j < l.length),
      assignTiers l (l.get ⟨j, hj⟩) =
        some (if j < 20 then AssetTier.hot
              else if j < 200 then AssetTier.medium else AssetTier.cold)) ∧
    (l.length < 20 → ∀ a ∈ l, assignTiers l a = some AssetTier.hot) ∧
    (l.length < 20 → ∀ a : String,
      assignTiers l a ≠ some AssetTier.medium ∧ assignTiers l a ≠ some AssetTier.cold) := by
  have hget : ∀ (j : ℕ) (hj : j < l.length),
      assignTiers l (l.get ⟨j, hj⟩) = some (tierFor j) := by
    intro j hj
    have h := assignTiersFrom_get l 0 j hj (fun _ => none) hnd
    rw [Nat.zero_add] at h
    exact h
  refine ⟨hget, ?_, ?_⟩
  · intro hlen a ha
    obtain ⟨⟨j, hj⟩, hgj⟩ := List.mem_iff_get.mp ha
    rw [← hgj, hget j hj]
    unfold tierFor
    rw [if_pos (by omega)]
  · intro hlen a
    rcases assignTiersFrom_cases l 0 (fun _ => none) a with h | ⟨j, hj, he⟩
    · rw [show assignTiers l a = assignTiersFrom 0 l (fun _ => none) a from rfl, h]
      exact ⟨by decide, by decide⟩
    · rw [show assignTiers l a = assignTiersFrom 0 l (fun _ => none) a from rfl, he]
      have hhot : tierFor (0 + j) = .hot := by
        unfold tierFor
        rw [if_pos (by omega)]
      rw [hhot]
      exact ⟨by decide, by decide⟩

/-- Witness for `assignTiers_byRank`: a three-asset universe, rank 0 is Hot,
all assets Hot, and an arbitrary unknown string is neither Medium nor
Cold. -/
theorem assignTiers_byRank_witness :
    (["aaa", "bbb", "ccc"] : List String).Nodup ∧
    assignTiers ["aaa", "bbb", "ccc"] ((["aaa", "bbb", "ccc"] : List String).get ⟨0, by decide⟩) =
      some (if 0 < 20 then AssetTier.hot
            else if 0 < 200 then AssetTier.medium else AssetTier.cold) ∧
    (∀ a ∈ (["aaa", "bbb", "ccc"] : List String),
      assignTiers ["aaa", "bbb", "ccc"] a = some AssetTier.hot) ∧
    (assignTiers ["aaa", "bbb", "ccc"] "zzz" ≠ some AssetTier.medium ∧
      assignTiers ["aaa", "bbb", "ccc"] "zzz" ≠ some AssetTier.cold) :=
  ⟨by decide,
   (assignTiers_byRank _ (by decide)).1 0 (by decide),
   (assignTiers_byRank _ (by decide)).2.1 (by decide),
   (assignTiers_byRank _ (by decide)).2.2 (by decide) "zzz"⟩

/-! Read-path lemmas. -/

theorem refreshAndRespond_called (assetTiers : String → Option AssetTier) (s : String)
    (env : ReadEnv) (pdopt : Option PriceData) :
    (refreshAndRespond assetTiers s env pdopt).refreshCalled = true := by
  unfold refreshAndRespond
  cases env.refreshErr with
  | some e => cases pdopt <;> rfl
  | none =>
    cases env.cacheGet2 with
    | error e => rfl
    | ok o => cases o <;> rfl

theorem getPrice_cacheHit (supported : String → Bool)
    (assetTiers : String → Option AssetTier) (symbol : String) (env : ReadEnv)
    (pd : PriceData) (hne : symbol ≠ "")
    (hsup : supported (toLowerStr symbol) = true)
    (hc : env.cacheGet1 = .ok (some pd)) :
    getPrice supported assetTiers symbol env =
      if getAssetTier assetTiers (toLowerStr symbol) = .cold ∧
          env.now - pd.timestamp > maxDataAge then
        refreshAndRespond assetTiers (toLowerStr symbol) env (some pd)
      else
        ⟨.ok pd (tierString (getAssetTier assetTiers (toLowerStr symbol))), false⟩ := by
  simp only [getPrice, if_neg hne, hsup, hc]
  simp

/-- C6: cold-tier staleness escalation on a cache hit. For a supported
asset with a cache hit: when the asset's tier is Cold and the cached data is
older than `maxDataAge`, `ForceRefresh` is invoked; when the tier is Hot or
Medium, `ForceRefresh` is not invoked regardless of the cached data's age. -/
theorem getPrice_coldStalenessCheck (supported : String → Bool)
    (assetTiers : String → Option AssetTier) (symbol : String) (env : ReadEnv)
    (pd : PriceData) (hne : symbol ≠ "")
    (hsup : supported (toLowerStr symbol) = true)
    (hc : env.cacheGet1 = .ok (some pd)) :
    (getAssetTier assetTiers (toLowerStr symbol) = .cold →
      env.now - pd.timestamp > maxDataAge →
      (getPrice supported assetTiers symbol env).refreshCalled = true) ∧
    (getAssetTier assetTiers (toLowerStr symbol) = .hot ∨
        getAssetTier assetTiers (toLowerStr symbol) = .medium →
      (getPrice supported assetTiers symbol env).refreshCalled = false) := by
  rw [getPrice_cacheHit supported assetTiers symbol env pd hne hsup hc]
  constructor
  · intro ht hage
    rw [if_pos ⟨ht, hage⟩]
    exact refreshAndRespond_called assetTiers (toLowerStr symbol) env (some pd)
  · intro ht
    have hncond : ¬(getAssetTier assetTiers (toLowerStr symbol) = .cold ∧
        env.now - pd.timestamp > maxDataAge) := by
      intro hcond
      rcases ht with ht | ht <;> rw [ht] at hcond <;> exact absurd hcond.1 (by decide)
    rw [if_neg hncond]

/-- Witness for `getPrice_coldStalenessCheck`: a cold-tier stale cache hit
invokes the refresher, a hot-tier cache hit of the same age does not. -/
theorem getPrice_coldStalenessCheck_witness :
    (getPrice (fun _ => true) (fun _ => some AssetTier.cold) "btc"
      { cacheGet1 := .ok (some ⟨"btc", 7, 0⟩)
        storageGet := .ok none
        refreshErr := some "fetch failed"
        cacheGet2 := .ok none
        now := 1000 }).refreshCalled = true ∧
    (getPrice (fun _ => true) (fun _ => some AssetTier.hot) "btc"
      { cacheGet1 := .ok (some ⟨"btc", 7, 0⟩)
        storageGet := .ok none
        refreshErr := some "fetch failed"
        cacheGet2 := .ok none
        now := 1000 }).refreshCalled = false :=
  ⟨(getPrice_coldStalenessCheck (fun _ => true) (fun _ => some AssetTier.cold) "btc"
      { cacheGet1 := .ok (some ⟨"btc", 7, 0⟩)
        storageGet := .ok none
        refreshErr := some "fetch failed"
        cacheGet2 := .ok none
        now := 1000 } ⟨"btc", 7, 0⟩ (by decide) rfl rfl).1 rfl (by decide),
   (getPrice_coldStalenessCheck (fun _ => true) (fun _ => some AssetTier.hot) "btc"
      { cacheGet1 := .ok (some ⟨"btc", 7, 0⟩)
        storageGet := .ok none
        refreshErr := some "fetch failed"
        cacheGet2 := .ok none
        now := 1000 } ⟨"btc", 7, 0⟩ (by decide) rfl rfl).2 (Or.inl rfl)⟩

/-- C7: evaluation of `GetPrice` at the failing input. A supported cold-tier
asset with a stale cache hit (so `priceData` is held), a successful
`ForceRefresh`, and a second cache read that misses: the handler responds
404 "Asset data not available" instead of falling back to the held stale
price point — the re-read reassigns `priceData`, contradicting the code's
own "Fall back to previous data if available" comment. -/
theorem getPrice_postRefreshMiss_bug :
    getPrice (fun _ => true) (fun _ => some AssetTier.cold) "btc"
      { cacheGet1 := .ok (some ⟨"btc", 7, 0⟩)
        storageGet := .ok none
        refreshErr := none
        cacheGet2 := .ok none
        now := 1000 } = ⟨.notFound, true⟩ ∧
    (⟨.notFound, true⟩ : GetPriceRun) ≠
      ⟨.ok ⟨"btc", 7, 0⟩ (tierString AssetTier.cold), true⟩ := by
  constructor
  · rfl
  · decide

/-- C8 counterexample: a cache read failure fails the request with an
internal error even though the storage layer holds fallback data for the
asset — the handler returns 500 without ever consulting storage. -/
theorem getPrice_cacheError_counterexample :
    getPrice (fun _ => true) (fun _ => some AssetTier.hot) "btc"
      { cacheGet1 := .error "redis connection refused"
        storageGet := .ok (some ⟨"btc", 5, 42, 5⟩)
        refreshErr := none
        cacheGet2 := .ok none
        now := 50 } = ⟨.internalError, false⟩ := by
  rfl

/-- C8 (amended): during a read request, a cache read failure always fails
the request with an internal error, without consulting storage (even when
storage holds data); a storage read failure — reachable only on a cache
miss, when no cache fallback exists — likewise always fails the request. -/
theorem getPrice_readFailures (supported : String → Bool)
    (assetTiers : String → Option AssetTier) (symbol : String) (env : ReadEnv)
    (hne : symbol ≠ "") (hsup : supported (toLowerStr symbol) = true) :
    (∀ e, env.cacheGet1 = .error e →
      getPrice supported assetTiers symbol env = ⟨.internalError, false⟩) ∧
    (∀ e, env.cacheGet1 = .ok none → env.storageGet = .error e →
      getPrice supported assetTiers symbol env = ⟨.internalError, false⟩) := by
  constructor
  · intro e hc
    simp only [getPrice, if_neg hne, hsup, hc]
    simp
  · intro e hc hs
    simp only [getPrice, if_neg hne, hsup, hc, hs]
    simp

/-- Witness for `getPrice_readFailures`: both read-failure paths evaluated
at concrete environments. -/
theorem getPrice_readFailures_witness :
    getPrice (fun _ => true) (fun _ => none) "eth"
      { cacheGet1 := .error "redis down"
        storageGet := .ok (some ⟨"eth", 1, 3, 1⟩)
        refreshErr := none
        cacheGet2 := .ok none
        now := 9 } = ⟨.internalError, false⟩ ∧
    getPrice (fun _ => true) (fun _ => none) "eth"
      { cacheGet1 := .ok none
        storageGet := .error "dynamodb down"
        refreshErr := none
        cacheGet2 := .ok none
        now := 9 } = ⟨.internalError, false⟩ :=
  ⟨(getPrice_readFailures (fun _ => true) (fun _ => none) "eth"
      { cacheGet1 := .error "redis down"
        storageGet := .ok (some ⟨"eth", 1, 3, 1⟩)
        refreshErr := none
        cacheGet2 := .ok none
        now := 9 } (by decide) rfl).1 "redis down" rfl,
   (getPrice_readFailures (fun _ => true) (fun _ => none) "eth"
      { cacheGet1 := .ok none
        storageGet := .error "dynamodb down"
        refreshErr := none
        cacheGet2 := .ok none
        now := 9 } (by decide) rfl).2 "dynamodb down" rfl rfl⟩

/-- C9: `ForceRefresh` error handling. An unsupported asset yields the
`AssetNotSupported` error without fetching; a supported asset with a failed
fetch yields the fetch error after recording the refresh-error metric; a
supported asset with a successful fetch yields nil and attempts both the
cache write and the storage write, whatever errors those writes produce. -/
theorem forceRefresh_errorHandling (supportedList : List String) (asset : String)
    (fetchResult : Except FetchErr PriceData) (cacheSetErr saveErr : Option String) :
    (supportedList.contains asset = false →
      forceRefresh supportedList asset fetchResult cacheSetErr saveErr =
        ⟨some .assetNotSupported, false, false, false, false⟩) ∧
    (∀ e, supportedList.contains asset = true → fetchResult = .error e →
      forceRefresh supportedList asset fetchResult cacheSetErr saveErr =
        ⟨some (.fetchFailed e), true, true, false, false⟩) ∧
    (∀ pd, supportedList.contains asset = true → fetchResult = .ok pd →
      forceRefresh supportedList asset fetchResult cacheSetErr saveErr =
        ⟨none, true, false, true, true⟩) := by
  refine ⟨?_, ?_, ?_⟩
  · intro h
    simp only [forceRefresh, h]
    rfl
  · intro e h hf
    simp only [forceRefresh, h, hf]
    rfl
  · intro pd h hf
    simp only [forceRefresh, h, hf]
    rfl

/-- Witness for `forceRefresh_errorHandling`: all three paths at concrete
inputs, the successful fetch with both writes failing. -/
theorem forceRefresh_errorHandling_witness :
    forceRefresh ["btc", "eth"] "doge" (.ok ⟨"doge", 1, 1⟩) none none =
      ⟨some .assetNotSupported, false, false, false, false⟩ ∧
    forceRefresh ["btc", "eth"] "btc" (.error (.noValidData ["timeout"])) none none =
      ⟨some (.fetchFailed (.noValidData ["timeout"])), true, true, false, false⟩ ∧
    forceRefresh ["btc", "eth"] "btc" (.ok ⟨"btc", 9, 3⟩)
        (some "redis down") (some "dynamodb down") =
      ⟨none, true, false, true, true⟩ :=
  ⟨(forceRefresh_errorHandling ["btc", "eth"] "doge" (.ok ⟨"doge", 1, 1⟩) none none).1
     (by decide),
   (forceRefresh_errorHandling ["btc", "eth"] "btc" (.error (.noValidData ["timeout"]))
     none none).2.1 (.noValidData ["timeout"]) (by decide) rfl,
   (forceRefresh_errorHandling ["btc", "eth"] "btc" (.ok ⟨"btc", 9, 3⟩)
     (some "redis down") (some "dynamodb down")).2.2 ⟨"btc", 9, 3⟩ (by decide) rfl⟩

/-- C10: default tier for unassigned assets. A Go map read returns the zero
value `HotTier` for any asset absent from the tier map, so `GetAssetTier`
returns Hot for such assets; consequently, on a cache hit the read path
treats the asset as Hot — the cold-tier staleness check is skipped and
`ForceRefresh` is not invoked, whatever the age of the cached data. -/
theorem getAssetTier_absent_hot (assetTiers : String → Option AssetTier) (asset : String) :
    (assetTiers asset = none → getAssetTier assetTiers asset = .hot) ∧
    (∀ (supported : String → Bool) (symbol : String) (env : ReadEnv) (pd : PriceData),
      symbol ≠ "" → supported (toLowerStr symbol) = true →
      assetTiers (toLowerStr symbol) = none →
      env.cacheGet1 = .ok (some pd) →
      getPrice supported assetTiers symbol env = ⟨.ok pd "hot", false⟩) := by
  constructor
  · intro h
    simp [getAssetTier, h]
  · intro supported symbol env pd hne hsup ht hc
    rw [getPrice_cacheHit supported assetTiers symbol env pd hne hsup hc]
    have hhot : getAssetTier assetTiers (toLowerStr symbol) = .hot := by
      simp [getAssetTier, ht]
    have hncond : ¬(getAssetTier assetTiers (toLowerStr symbol) = .cold ∧
        env.now - pd.timestamp > maxDataAge) := by
      intro hcond
      rw [hhot] at hcond
      exact absurd hcond.1 (by decide)
    rw [if_neg hncond, hhot]
    rfl

/-- Witness for `getAssetTier_absent_hot`: an empty tier map sends an
arbitrary symbol to Hot, and an arbitrarily old cache hit for it is served
without a forced refresh. -/
theorem getAssetTier_absent_hot_witness :
    getAssetTier (fun _ => none) "unknownxyz" = .hot ∧
    getPrice (fun _ => true) (fun _ => none) "unknownxyz"
      { cacheGet1 := .ok (some ⟨"unknownxyz", 2, 0⟩)
        storageGet := .ok none
        refreshErr := none
        cacheGet2 := .ok none
        now := 1000000 } = ⟨.ok ⟨"unknownxyz", 2, 0⟩ "hot", false⟩ :=
  ⟨(getAssetTier_absent_hot (fun _ => none) "unknownxyz").1 rfl,
   (getAssetTier_absent_hot (fun _ => none) "unknownxyz").2 (fun _ => true) "unknownxyz"
     { cacheGet1 := .ok (some ⟨"unknownxyz", 2, 0⟩)
       storageGet := .ok none
       refreshErr := none
       cacheGet2 := .ok none
       now := 1000000 } ⟨"unknownxyz", 2, 0⟩ (by decide) rfl rfl rfl⟩

end PriceAggregator
